import Mathlib

/-!
Verification of the debate-system orchestration core.

Shallow embedding of the Python sources:
  src/agents/debate_agent.py, src/agents/moderator.py, src/agents/fact_checker.py,
  src/agents/base_agent.py, src/agents/debate_system.py and
  langchain_debatesys/src/chains/fact_checker.py,
  langchain_debatesys/src/tools/debate_system.py.

Python floats are modelled as rationals (the scoring arithmetic involves only
decimal literals, +, *, /, min, max, so the real-number reading of the spec is
exact over ℚ).  The external text-generation capability is a parameter of each
embedded operation, either as a total function String → String when the Python
caller catches every exception internally, or as String → Except String String
when the raising and empty-result cases must be distinguished.
-/

namespace DebateSys

/-- Python str.lower for the ASCII keyword matching done throughout the source:
lowercases every character.  (Implemented over the character list so that the
kernel can evaluate it on concrete inputs.) -/
def pyLower (s : String) : String := ⟨s.toList.map Char.toLower⟩

/-- Contiguous-sublist test on character lists, used to model the Python
substring operator. -/
def listHasSub (needle hay : List Char) : Bool :=
  (List.range (hay.length + 1)).any (fun i => needle.isPrefixOf (hay.drop i))

/-- Python `needle in hay` on strings: containment as a contiguous substring. -/
def pyIn (needle hay : String) : Bool := listHasSub needle.toList hay.toList

/-- Python str.strip() (only whitespace stripping is used by the source). -/
def pyStrip (s : String) : String :=
  ⟨((s.toList.dropWhile Char.isWhitespace).reverse.dropWhile Char.isWhitespace).reverse⟩

/-- Split a character list at every occurrence of characters satisfying p,
keeping empty pieces — the behaviour of Python str.split(sep) for a
one-character separator. -/
def splitPredChars (p : Char → Bool) : List Char → List (List Char)
  | [] => [[]]
  | c :: cs =>
    match splitPredChars p cs with
    | [] => [[]]
    | h :: t => if p c then [] :: h :: t else (c :: h) :: t

/-- Python s.split(sep) for a single-character separator. -/
def pySplitChar (sep : Char) (s : String) : List String :=
  (splitPredChars (fun c => c = sep) s.toList).map (fun l => ⟨l⟩)

/-- Python str.split() with no argument: split on whitespace runs, dropping
empty pieces. -/
def pyWords (s : String) : List String :=
  ((splitPredChars Char.isWhitespace s.toList).map (fun l => (⟨l⟩ : String))).filter
    (fun w => w ≠ "")

/-- Python s.startswith(pre). -/
def pyStartsWith (pre s : String) : Bool := pre.toList.isPrefixOf s.toList

/-- Python s[n:] (n ≥ 0): drop the first n characters. -/
def pyDrop (s : String) (n : ℕ) : String := ⟨s.toList.drop n⟩

/-- Python len(s): the number of characters. -/
def pyLen (s : String) : ℕ := s.toList.length

/-- Python min(1.0, max(0.0, x)). -/
def clamp01 (x : ℚ) : ℚ := min 1 (max 0 x)

/-! ### DebateAgent._evaluate_argument_strength (src/agents/debate_agent.py 400-417) -/

/-- DebateAgent._evaluate_argument_strength translated statement by statement:
base 0.7, then three independent +0.1 bonuses, capped with min(strength, 1.0).
The source checks only "research shows" / "studies indicate" for evidence and
only "therefore" / "consequently" for logical structure. -/
def evaluateArgumentStrength (argument : String) : ℚ :=
  let strength : ℚ := 0.7
  let strength :=
    if pyIn "research shows" (pyLower argument) || pyIn "studies indicate" (pyLower argument) then
      strength + 0.1
    else strength
  let strength :=
    if pyIn "therefore" (pyLower argument) || pyIn "consequently" (pyLower argument) then
      strength + 0.1
    else strength
  let strength :=
    if pyIn "however" (pyLower argument) || pyIn "although" (pyLower argument) then
      strength + 0.1
    else strength
  min strength 1

/-- The strength rule exactly as claim C4 words it: the evidentiary list also
holds "evidence suggests" and the logical list also holds "thus" and "hence".
Written from the claim, to be compared against the source embedding. -/
def claimedStrength (text : String) : ℚ :=
  let low := pyLower text
  let evidentiary : ℚ :=
    if pyIn "research shows" low || pyIn "studies indicate" low || pyIn "evidence suggests" low then 0.1 else 0
  let logical : ℚ :=
    if pyIn "therefore" low || pyIn "consequently" low || pyIn "thus" low || pyIn "hence" low then 0.1 else 0
  let concessive : ℚ :=
    if pyIn "however" low || pyIn "although" low then 0.1 else 0
  min (0.7 + evidentiary + logical + concessive) 1

/-- Closed-form description of what the source function actually computes,
with the phrase lists the code really uses. -/
def actualStrength (text : String) : ℚ :=
  let low := pyLower text
  let evidentiary : ℚ := if pyIn "research shows" low || pyIn "studies indicate" low then 0.1 else 0
  let logical : ℚ := if pyIn "therefore" low || pyIn "consequently" low then 0.1 else 0
  let concessive : ℚ := if pyIn "however" low || pyIn "although" low then 0.1 else 0
  min (0.7 + evidentiary + logical + concessive) 1

/-! ### ModeratorAgent state and intervention check (src/agents/moderator.py) -/

/-- The slice of ModeratorAgent.debate_state consulted by the intervention
check, together with the fixed time limits. -/
structure ModeratorDebateState where
  currentStage : String
  lastSpeakerStart : Option ℚ
  topicAdherenceScore : ℚ
  inappropriateContentCount : ℕ
  interruptions : ℕ

/-- ModeratorAgent.time_limits with the dict.get default 120 used by
_check_time_violation. -/
def timeLimits (stage : String) : ℚ :=
  if stage = "opening" then 180
  else if stage = "rebuttal" then 120
  else if stage = "closing" then 180
  else 120

/-- ModeratorAgent._check_time_violation: False when no speaker has started,
otherwise elapsed speaking time strictly above the stage limit. -/
def checkTimeViolation (s : ModeratorDebateState) (now : ℚ) : Bool :=
  match s.lastSpeakerStart with
  | none => false
  | some start => decide (now - start > timeLimits s.currentStage)

/-- ModeratorAgent._check_off_topic. -/
def checkOffTopic (s : ModeratorDebateState) : Bool :=
  decide (s.topicAdherenceScore < 0.5)

/-- ModeratorAgent._check_inappropriate_content. -/
def checkInappropriateContent (s : ModeratorDebateState) : Bool :=
  decide (s.inappropriateContentCount > 0)

/-- ModeratorAgent._check_interruption. -/
def checkInterruption (s : ModeratorDebateState) : Bool :=
  decide (s.interruptions > 0)

/-- ModeratorAgent._check_intervention_needed: the four triggers in source
order, first match wins, None when nothing fires. -/
def checkInterventionNeeded (s : ModeratorDebateState) (now : ℚ) : Option String :=
  if checkTimeViolation s now then some "Time limit exceeded"
  else if checkOffTopic s then some "Discussion off topic"
  else if checkInappropriateContent s then some "Inappropriate content"
  else if checkInterruption s then some "Speaker interruption"
  else none

/-- ModeratorAgent.update_topic_adherence: the new score is
min(1.0, (old + sample) / 2). -/
def updateTopicAdherence (oldScore sample : ℚ) : ℚ :=
  min 1 ((oldScore + sample) / 2)

/-! ### Theorems for claims C4, C6, C7 -/

/-- C4 counterexample: on the text "evidence suggests thus" the source scores
0.7 (no bonus fires, because _evaluate_argument_strength checks neither
"evidence suggests" nor "thus"), while the claim as stated demands
0.7 + 0.1 + 0.1 = 0.9.  The claimed scoring rule therefore differs from the
code at this input. -/
theorem c4_strength_counterexample :
    evaluateArgumentStrength "evidence suggests thus" = 7/10 ∧
    claimedStrength "evidence suggests thus" = 9/10 ∧
    evaluateArgumentStrength "evidence suggests thus" ≠
      claimedStrength "evidence suggests thus" := by
  refine ⟨?_, ?_, ?_⟩
  · simp +decide [evaluateArgumentStrength]
    norm_num [min_def]
  · simp +decide [claimedStrength]
    norm_num
  · simp +decide [evaluateArgumentStrength, claimedStrength]
    norm_num [min_def]

/-- C4 (amended): _evaluate_argument_strength computes base 0.7 plus 0.1 for
an evidentiary phrase ("research shows" or "studies indicate" only),
plus 0.1 for a logical connective ("therefore" or "consequently" only),
plus 0.1 for "however" or "although", capped at 1.0; it is a pure function of
the text and its value lies in [0, 1] for every input, including the empty
string. -/
theorem c4_strength_closed_form_and_range (text : String) :
    evaluateArgumentStrength text = actualStrength text ∧
    0 ≤ evaluateArgumentStrength text ∧ evaluateArgumentStrength text ≤ 1 := by
  cases h1 : (pyIn "research shows" (pyLower text) || pyIn "studies indicate" (pyLower text)) <;>
    cases h2 : (pyIn "therefore" (pyLower text) || pyIn "consequently" (pyLower text)) <;>
      cases h3 : (pyIn "however" (pyLower text) || pyIn "although" (pyLower text)) <;>
        refine ⟨?_, ?_, ?_⟩ <;>
          simp only [evaluateArgumentStrength, actualStrength, h1, h2, h3] <;>
            norm_num [min_def]

/-- C6: whenever the timing trigger and the topic-drift trigger hold at the
same time (regardless of the content and interruption counters), the
intervention check answers with the timing reason "Time limit exceeded" —
the first match in the fixed priority order wins. -/
theorem c6_intervention_priority (s : ModeratorDebateState) (now : ℚ)
    (htime : checkTimeViolation s now = true)
    (hdrift : checkOffTopic s = true) :
    checkInterventionNeeded s now = some "Time limit exceeded" := by
  unfold checkInterventionNeeded
  rw [htime]
  simp

/-- C6 witness: a concrete moderator state in the rebuttal stage where the
speaker overran the 120 second limit and the adherence score has drifted
below 0.5 (with content and interruption counters also positive). -/
theorem c6_intervention_priority_witness :
    checkInterventionNeeded ⟨"rebuttal", some 0, 0.3, 2, 1⟩ 121 =
      some "Time limit exceeded" :=
  c6_intervention_priority ⟨"rebuttal", some 0, 0.3, 2, 1⟩ 121
    (by simp +decide [checkTimeViolation, timeLimits])
    (by simp only [checkOffTopic, decide_eq_true_eq]; norm_num)

/-- C7: on the declared domain of the data model (old score and new sample
both in [0, 1]) the update stores exactly the average (old + sample) / 2 —
the min-with-1 guard in the source never clips there. -/
theorem c7_ema_update (oldScore sample : ℚ)
    (h0 : 0 ≤ oldScore) (h1 : oldScore ≤ 1)
    (h2 : 0 ≤ sample) (h3 : sample ≤ 1) :
    updateTopicAdherence oldScore sample = (oldScore + sample) / 2 := by
  unfold updateTopicAdherence
  have h : (oldScore + sample) / 2 ≤ 1 := by linarith
  exact min_eq_right h

/-- C7 witness: from score 1.0 and sample 0.0 the updated score is exactly
0.5. -/
theorem c7_ema_update_witness : updateTopicAdherence 1 0 = 1/2 := by
  have h := c7_ema_update 1 0 (by norm_num) (by norm_num) (by norm_num) (by norm_num)
  rw [h]
  norm_num

/-! ### Agent memory store (src/agents/base_agent.py, src/agents/fact_checker.py)

The Memory dataclass carries content, importance, context, timestamp, type and
associations; capacity management reads only importance, so the context and
associations mappings are elided from the record. -/

/-- The Memory dataclass of base_agent.py (fields relevant to storage). -/
structure MemoryRec where
  content : String
  importance : ℚ
  timestamp : ℚ
  kind : String
deriving DecidableEq

/-- The sort key used by BaseAgent._manage_memory_capacity:
memories.sort(key=lambda m: m.importance). -/
def memLe (a b : MemoryRec) : Prop := a.importance ≤ b.importance

instance : DecidableRel memLe :=
  fun a b => inferInstanceAs (Decidable (a.importance ≤ b.importance))

instance : IsTotal MemoryRec memLe := ⟨fun a b => le_total a.importance b.importance⟩

instance : IsTrans MemoryRec memLe := ⟨fun _ _ _ hab hbc => le_trans hab hbc⟩

/-- BaseAgent._manage_memory_capacity with its default bound 1000:
if len(memories) > 1000, sort ascending by importance and keep the final 1000
entries (the Python slice memories[-1000:]). -/
def manageMemoryCapacity (memories : List MemoryRec) : List MemoryRec :=
  if 1000 < memories.length then
    let sorted := List.insertionSort memLe memories
    sorted.drop (sorted.length - 1000)
  else memories

/-- BaseAgent._store_memory, capacity-relevant effect: append the new memory,
then run _manage_memory_capacity.  (The construction of the Memory record from
the perceived info is performed by the caller here.) -/
def storeMemory (memories : List MemoryRec) (m : MemoryRec) : List MemoryRec :=
  manageMemoryCapacity (memories ++ [m])

/-- FactCheckerAgent._store_verification_result, memory-store effect: build a
semantic memory whose importance is the verification confidence and append it
with self.memories.append(memory).  No capacity management is invoked.  (The
verified_facts and goal updates of the same method are modelled with the
fact-checking pipeline below; the exact memory_content prose is abbreviated.) -/
def storeVerificationResultMemories (memories : List MemoryRec) (claim : String)
    (confidence : ℚ) (now : ℚ) : List MemoryRec :=
  memories ++ [⟨"Verified claim: " ++ claim, confidence, now, "semantic"⟩]

/-- Helper: _manage_memory_capacity always leaves min(len, 1000) entries. -/
theorem manageMemoryCapacity_length (memories : List MemoryRec) :
    (manageMemoryCapacity memories).length = min memories.length 1000 := by
  unfold manageMemoryCapacity
  by_cases h : 1000 < memories.length
  · rw [if_pos h]
    have hlen : (List.insertionSort memLe memories).length = memories.length :=
      (List.perm_insertionSort memLe memories).length_eq
    simp only [List.length_drop, hlen]
    omega
  · rw [if_neg h]
    omega

/-- C9 counterexample: with the store already at its capacity bound of 1000
entries, one call to the fact-checker storage path leaves 1001 entries — the
bound claimed for every memory-storing operation is violated, because
_store_verification_result appends without calling _manage_memory_capacity. -/
theorem c9_capacity_counterexample :
    (storeVerificationResultMemories
      (List.replicate 1000 (⟨"m", 1/2, 0, "semantic"⟩ : MemoryRec)) "c" (1/2) 1).length
      = 1001 ∧ 1000 < 1001 := by
  constructor
  · unfold storeVerificationResultMemories
    rw [List.length_append, List.length_replicate, List.length_singleton]
  · norm_num

/-- C9 (amended): storing through BaseAgent._store_memory preserves the
1000-entry capacity bound, and whenever the store exceeds the bound,
_manage_memory_capacity keeps exactly 1000 entries and every pruned entry has
importance at most that of every kept entry (least-important pruned first).
FactCheckerAgent._store_verification_result, by contrast, appends without
pruning, so the bound does not hold for it (see the counterexample). -/
theorem c9_capacity_amended :
    (∀ (memories : List MemoryRec) (m : MemoryRec), memories.length ≤ 1000 →
      (storeMemory memories m).length ≤ 1000) ∧
    (∀ memories : List MemoryRec, 1000 < memories.length →
      (manageMemoryCapacity memories).length = 1000 ∧
      ∀ x ∈ (List.insertionSort memLe memories).take (memories.length - 1000),
        ∀ y ∈ manageMemoryCapacity memories, x.importance ≤ y.importance) := by
  have hkeep : ∀ memories : List MemoryRec, 1000 < memories.length →
      manageMemoryCapacity memories =
        (List.insertionSort memLe memories).drop (memories.length - 1000) := by
    intro memories h
    unfold manageMemoryCapacity
    rw [if_pos h]
    show (List.insertionSort memLe memories).drop
        ((List.insertionSort memLe memories).length - 1000) = _
    rw [(List.perm_insertionSort memLe memories).length_eq]
  constructor
  · intro memories m hlen
    have := manageMemoryCapacity_length (memories ++ [m])
    unfold storeMemory
    omega
  · intro memories h
    refine ⟨by rw [manageMemoryCapacity_length]; omega, ?_⟩
    intro x hx y hy
    rw [hkeep memories h] at hy
    have hsorted : List.Pairwise memLe (List.insertionSort memLe memories) :=
      List.sorted_insertionSort memLe memories
    rw [← List.take_append_drop (memories.length - 1000) (List.insertionSort memLe memories)]
      at hsorted
    exact (List.pairwise_append.mp hsorted).2.2 x hx y hy

/-- C9 witness: the amended bound applied at a full store of 1000 entries, and
the pruning size applied at a store of 1001 entries. -/
theorem c9_capacity_amended_witness :
    (storeMemory (List.replicate 1000 (⟨"m", 1/2, 0, "semantic"⟩ : MemoryRec))
      ⟨"n", 3/4, 1, "episodic"⟩).length ≤ 1000 ∧
    (manageMemoryCapacity
      (List.replicate 1001 (⟨"m", 1/2, 0, "semantic"⟩ : MemoryRec))).length = 1000 :=
  ⟨c9_capacity_amended.1 _ _ (by simp only [List.length_replicate, le_refl]),
   (c9_capacity_amended.2 _ (by simp only [List.length_replicate]; norm_num)).1⟩

/-! ### DebateAgent.generate_opening_statement (src/agents/debate_agent.py 50-109)

The generator is a parameter of type String → Except String String: an error
value models a raised exception in the llm call, an ok value the returned
text.  The perceive() call at the top of the method only mutates internal
agent state and its result is never used by the returned value, so it does
not appear in the embedding.  Prompt strings keep only the parts that depend
on the inputs; the fixed requirement prose is abbreviated since the generator
parameter treats prompts as opaque text. -/

/-- The debater fields read by the opening path. -/
structure DebaterAgent where
  name : String
  stance : String
  style : String
  personalityConfidence : ℚ

/-- The opening prompt built by generate_opening_statement. -/
def openingPrompt (topic stance : String) : String :=
  "Generate a complete opening debate statement on: " ++ topic ++ " Position: " ++ stance

/-- The prompt built by _generate_completion. -/
def completionPrompt (partialStatement topic : String) : String :=
  "Complete this debate statement naturally: Partial statement: " ++
    partialStatement ++ " Topic: " ++ topic

/-- DebateAgent._generate_completion: one more generation call; a raised
exception or an empty result falls back to the string ".". -/
def generateCompletion (llm : String → Except String String)
    (partialResponse topic : String) : String :=
  match llm (completionPrompt partialResponse topic) with
  | .error _ => "."
  | .ok completion => if completion = "" then "." else completion

/-- DebateAgent._extract_evidence: split on ".", keep stripped sentences that
mention one of the evidence keywords. -/
def extractEvidence (text : String) : List String :=
  (pySplitChar (Char.ofNat 46) text).foldl (fun acc sentence =>
    if ["research", "study", "evidence", "data", "shows", "demonstrates"].any
        (fun w => pyIn w (pyLower sentence)) then acc ++ [pyStrip sentence]
    else acc) []

/-- DebateAgent._calculate_confidence: strength scaled by the personality
confidence factor and by 1 + 0.1 * (number of evidence excerpts), capped at
1.0. -/
def calculateConfidence (agent : DebaterAgent) (strength : ℚ) (evidenceCount : ℕ) : ℚ :=
  min (strength * (1 + agent.personalityConfidence - 0.5) * (1 + (evidenceCount : ℚ) * 0.1)) 1

/-- The metadata dict returned by generate_opening_statement.  The error field
models the presence of an error key set to True; the source never puts such a
key in this metadata, so the embedding sets it to false on every path. -/
structure OpeningMetadata where
  stance : String
  style : String
  confidence : ℚ
  error : Bool
deriving DecidableEq

/-- The dict returned by generate_opening_statement. -/
structure OpeningResult where
  content : String
  metadata : OpeningMetadata
deriving DecidableEq

/-- DebateAgent.generate_opening_statement: on a generation result of fewer
than 50 words, a completion is generated and appended (f-string plus strip);
the Argument record and its strength are computed and the content plus
metadata dict is returned.  A raised generation exception is caught and
yields the content "Error generating opening statement: ..." with confidence
0.0 — still without an error key. -/
def generateOpeningStatement (llm : String → Except String String)
    (agent : DebaterAgent) (topic : String) : OpeningResult :=
  match llm (openingPrompt topic agent.stance) with
  | .error e =>
      ⟨"Error generating opening statement: " ++ e,
        ⟨agent.stance, agent.style, 0, false⟩⟩
  | .ok firstResponse =>
      let response :=
        if (pyWords firstResponse).length < 50 then
          pyStrip (firstResponse ++ " " ++ generateCompletion llm firstResponse topic)
        else firstResponse
      let argStrength := evaluateArgumentStrength response
      let evidence := extractEvidence response
      ⟨response, ⟨agent.stance, agent.style,
        calculateConfidence agent argStrength evidence.length, false⟩⟩

/-- C3 counterexample: with a generator that returns the empty string for
every prompt, generate_opening_statement returns the content "." (the
stripped concatenation of the empty response with the "." completion
fallback) and its metadata carries no error flag — not the stance-labeled
error string with error = true that the claim requires. -/
theorem c3_empty_opening_counterexample :
    (generateOpeningStatement (fun _ => Except.ok "")
      ⟨"Proponent", "in favor", "formal", 4/5⟩ "T").content = "." ∧
    (generateOpeningStatement (fun _ => Except.ok "")
      ⟨"Proponent", "in favor", "formal", 4/5⟩ "T").metadata.error = false := by
  constructor
  · rfl
  · rfl

/-- C3 (amended): when generation returns an empty string for an opening
statement, generate_opening_statement does not raise; it invokes the
completion call and returns the stripped concatenation of the empty response
and the completion (the bare "." when the completion also fails or is empty),
with metadata carrying the stance, style and a computed confidence but no
error flag.  The stance-tagged content "Error generating opening statement:
..." appears only when the generation call raises, and even then the metadata
carries no error = true. -/
theorem c3_empty_opening_amended (llm : String → Except String String)
    (agent : DebaterAgent) (topic : String)
    (h : llm (openingPrompt topic agent.stance) = Except.ok "") :
    (generateOpeningStatement llm agent topic).content =
      pyStrip ("" ++ " " ++ generateCompletion llm "" topic) ∧
    (generateOpeningStatement llm agent topic).metadata.error = false ∧
    (generateOpeningStatement llm agent topic).metadata.stance = agent.stance := by
  unfold generateOpeningStatement
  rw [h]
  have hw : (pyWords "").length < 50 := by decide
  simp [if_pos hw]

/-- C3 witness: the amended statement applied to the all-empty generator. -/
theorem c3_empty_opening_amended_witness :
    (generateOpeningStatement (fun _ => Except.ok "")
      ⟨"Proponent", "in favor", "formal", 4/5⟩ "T").content =
      pyStrip ("" ++ " " ++ generateCompletion (fun _ => Except.ok "") "" "T") ∧
    (generateOpeningStatement (fun _ => Except.ok "")
      ⟨"Proponent", "in favor", "formal", 4/5⟩ "T").metadata.error = false :=
  ⟨(c3_empty_opening_amended (fun _ => Except.ok "")
      ⟨"Proponent", "in favor", "formal", 4/5⟩ "T" rfl).1,
   (c3_empty_opening_amended (fun _ => Except.ok "")
      ⟨"Proponent", "in favor", "formal", 4/5⟩ "T" rfl).2.1⟩

/-! ### Fact-checking pipeline (src/agents/fact_checker.py, base_agent.py and
langchain_debatesys/src/chains/fact_checker.py)

Python float() is modelled on the inputs it receives here: optionally signed
decimal literals (digits with at most one dot).  Exponent forms, inf and nan
are not produced by the confidence lines considered, and every theorem below
is conditional on the modelled parse, or applies it to concrete inputs where
it agrees with Python. -/

/-- The numeric value of a digit string (most significant first). -/
def digitsToNat (l : List Char) : ℕ :=
  l.foldl (fun n c => 10 * n + (c.toNat - 48)) 0

/-- float() on an unsigned string of digits and dots: defined when there is
at least one digit and at most one dot. -/
def decimalChars? (l : List Char) : Option ℚ :=
  if l.all (fun c => c.isDigit || c = '.') && l.count '.' ≤ 1 && l.any Char.isDigit then
    let intPart := l.takeWhile (fun c => c ≠ '.')
    let fracPart := (l.dropWhile (fun c => c ≠ '.')).drop 1
    some ((digitsToNat intPart : ℚ) + (digitsToNat fracPart : ℚ) / 10 ^ fracPart.length)
  else none

/-- Python float(s) on stripped, optionally signed decimal literals; none
models a raised ValueError. -/
def pyFloat? (s : String) : Option ℚ :=
  let t := (pyStrip s).toList
  match t with
  | [] => none
  | c :: rest =>
    if c = '-' then (decimalChars? rest).map (fun q => -q)
    else if c = '+' then decimalChars? rest
    else decimalChars? t

/-- The verification record built by FactCheckerAgent: the parse result plus
the claim key added by _verify_claim / check_statement. -/
structure ClaimVerification where
  claim : String
  status : String
  confidence : ℚ
  reason : String
  corrections : List String
deriving DecidableEq

/-- line.startswith(("1.", "2.", "3.", "4.")) from
FactCheckerAgent._parse_verification_response. -/
def numberedShortLine (line : String) : Bool :=
  pyStartsWith "1." line || pyStartsWith "2." line ||
    pyStartsWith "3." line || pyStartsWith "4." line

/-- The join of the digit and dot characters of a line — the numbers string
that FactCheckerAgent._parse_verification_response feeds to float(). -/
def digitDotFilter (line : String) : String :=
  ⟨line.toList.filter (fun c => c.isDigit || c = '.')⟩

/-- Python line.split(":")[-1]. -/
def lastColonPart (line : String) : String :=
  (pySplitChar ':' line).getLastD ""

/-- The reason and corrections blocks of
FactCheckerAgent._parse_verification_response — skipped for a line whose
confidence number fails to parse (the except ValueError: continue). -/
def fcParseLineTail (st : ClaimVerification) (line : String) : ClaimVerification :=
  let low := pyLower line
  let st :=
    if pyIn "reason" low || pyIn "reasoning" low then
      { st with reason := pyStrip (lastColonPart line) }
    else st
  if pyIn "correct" low then
    let correction := pyStrip (lastColonPart line)
    if correction = "" then st
    else { st with corrections := st.corrections ++ [correction] }
  else st

/-- One loop iteration of FactCheckerAgent._parse_verification_response:
strip the line, strip a short numbering prefix, match the status keywords,
then look for a confidence number (any line containing a digit; the digit and
dot characters are joined and fed to float(); values above 1 are divided by
100 and the result is clamped to [0,1]; a ValueError skips the rest of the
iteration), then the reason and corrections prefixes. -/
def fcParseLine (st : ClaimVerification) (rawLine : String) : ClaimVerification :=
  let line := pyStrip rawLine
  let line := if numberedShortLine line then pyStrip (pyDrop line 2) else line
  let low := pyLower line
  let st :=
    if pyIn "verified" low then { st with status := "Verified" }
    else if pyIn "misleading" low then { st with status := "Misleading" }
    else if pyIn "unverified" low then { st with status := "Unverified" }
    else st
  if line.toList.any Char.isDigit then
    match pyFloat? (digitDotFilter line) with
    | some confidence =>
      let confidence := if confidence > 1 then confidence / 100 else confidence
      fcParseLineTail { st with confidence := min 1 (max 0 confidence) } line
    | none => st
  else fcParseLineTail st line

/-- The initial result dict of _parse_verification_response (the claim field
is filled in later by _verify_claim). -/
def fcParseInit : ClaimVerification := ⟨"", "Unverified", 0, "", []⟩

/-- FactCheckerAgent._parse_verification_response: fold the line parser over
response.strip().split("\n").  The surrounding try/except never fires in the
embedding since every step is total. -/
def parseVerificationResponse (response : String) : ClaimVerification :=
  (pySplitChar '\n' (pyStrip response)).foldl fcParseLine fcParseInit

/-- The result dict of langchain ClaimVerifier._parse_verification. -/
structure LCVerification where
  status : String
  confidence : ℚ
  reasoning : String
  corrections : List String
deriving DecidableEq

/-- One loop iteration of ClaimVerifier._parse_verification: exact prefix
matches; line.split(":", 1)[1] is the text after the first colon, which for a
line starting with the matched prefix is the text after that prefix.  A
confidence value is stored raw — no percentage division and no clamping; a
ValueError leaves the previous value. -/
def lcParseLine (st : LCVerification) (line : String) : LCVerification :=
  if pyStartsWith "Status:" line then { st with status := pyStrip (pyDrop line 7) }
  else if pyStartsWith "Confidence:" line then
    match pyFloat? (pyStrip (pyDrop line 11)) with
    | some c => { st with confidence := c }
    | none => st
  else if pyStartsWith "Reasoning:" line then { st with reasoning := pyStrip (pyDrop line 10) }
  else if pyStartsWith "Corrections:" line then
    let corrections := pyStrip (pyDrop line 12)
    if corrections = "" then st
    else { st with corrections := (pySplitChar ';' corrections).map pyStrip }
  else st

/-- ClaimVerifier._parse_verification: fold over text.split("\n") (no strip
of the whole text). -/
def lcParseVerification (text : String) : LCVerification :=
  (pySplitChar '\n' text).foldl lcParseLine ⟨"Unverified", 0, "", []⟩

/-- The result dict of BaseAgent._parse_verification_response. -/
structure BaseVerification where
  status : String
  confidence : ℚ
  reason : String
deriving DecidableEq

/-- Python line.split(":")[1] — the piece between the first and second colon.
The callers guard with a substring test that guarantees a colon, so the
default is unreachable. -/
def secondColonField (line : String) : String :=
  (pySplitChar ':' line).getD 1 ""

/-- One loop iteration of BaseAgent._parse_verification_response: substring
tests on the lowercased line, if/elif chained; the confidence value is stored
raw — no percentage division and no clamping — and a ValueError stores 0.5. -/
def baseParseLine (st : BaseVerification) (line : String) : BaseVerification :=
  let low := pyLower line
  if pyIn "status:" low then { st with status := pyStrip (secondColonField line) }
  else if pyIn "confidence:" low then
    match pyFloat? (pyStrip (secondColonField line)) with
    | some c => { st with confidence := c }
    | none => { st with confidence := 0.5 }
  else if pyIn "reason:" low then { st with reason := pyStrip (secondColonField line) }
  else st

/-- BaseAgent._parse_verification_response: fold over
response.strip().split("\n"). -/
def baseParseVerificationResponse (response : String) : BaseVerification :=
  (pySplitChar '\n' (pyStrip response)).foldl baseParseLine ⟨"Unverified", 0, ""⟩

/-- The extraction prompt of FactCheckerAgent._extract_claims; only the
dependence on the statement matters to the generator parameter, the fixed
instruction prose is abbreviated. -/
def extractionPrompt (statement : String) : String :=
  "Extract specific, verifiable factual claims from this statement. Statement: " ++ statement

/-- The verification prompt of FactCheckerAgent._verify_claim. -/
def verificationPrompt (claim : String) : String :=
  "Verify this claim based on general knowledge. Claim: " ++ claim

/-- FactCheckerAgent._extract_claims: one generation call; on a raised
exception return []; otherwise keep every stripped line (numbering prefix
dropped) that is non-empty, longer than 10 characters and free of the three
meta markers. -/
def extractClaims (llm : String → Except String String) (statement : String) :
    List String :=
  match llm (extractionPrompt statement) with
  | .error _ => []
  | .ok response =>
    (pySplitChar '\n' response).foldl (fun claims rawLine =>
      let line := pyStrip rawLine
      let claim :=
        if line ≠ "" && (List.range 10).any (fun i => pyStartsWith (toString i ++ ".") line) then
          pyStrip (pyDrop line 2)
        else line
      if claim ≠ "" && 10 < pyLen claim &&
          !(pyIn "example:" (pyLower claim)) && !(pyIn "such as:" (pyLower claim)) &&
          !(pyIn "note:" (pyLower claim)) then
        claims ++ [claim]
      else claims) []

/-- FactCheckerAgent._verify_claim: one generation call parsed into a record,
with the claim key added; a raised exception yields an Error record with
confidence 0.0.  (On success the source also calls _store_verification_result;
its cache write stores the same key and record as the assignment in
check_statement modelled below, and its memory write is
storeVerificationResultMemories above.) -/
def verifyClaim (llm : String → Except String String) (claim : String) :
    ClaimVerification :=
  match llm (verificationPrompt claim) with
  | .error e => ⟨claim, "Error", 0, e, []⟩
  | .ok response => { parseVerificationResponse response with claim := claim }

/-- Lookup in the verified_facts dict, modelled as an association list (first
match; entries are only ever added for absent keys, so keys stay unique). -/
def cacheFind? (cache : List (String × ClaimVerification)) (claim : String) :
    Option ClaimVerification :=
  (cache.find? (fun entry => entry.1 == claim)).map (fun entry => entry.2)

/-- self.verified_facts[claim] = result for a key that is not yet present. -/
def cacheInsert (cache : List (String × ClaimVerification)) (claim : String)
    (record : ClaimVerification) : List (String × ClaimVerification) :=
  cache ++ [(claim, record)]

/-- The claim loop of FactCheckerAgent.check_statement: for each claim use the
cached record if present, otherwise verify and store.  The third component is
ghost instrumentation recording the claims sent to _verify_claim (each costing
one external generation call plus parsing). -/
def processClaims (llm : String → Except String String) :
    List String → List (String × ClaimVerification) →
      List ClaimVerification × List (String × ClaimVerification) × List String
  | [], cache => ([], cache, [])
  | claim :: rest, cache =>
    match cacheFind? cache claim with
    | some r =>
      let out := processClaims llm rest cache
      (r :: out.1, out.2.1, out.2.2)
    | none =>
      let r := verifyClaim llm claim
      let out := processClaims llm rest (cacheInsert cache claim r)
      (r :: out.1, out.2.1, claim :: out.2.2)

/-- One detail entry of the aggregated result. -/
structure ClaimDetail where
  claim : String
  status : String
  confidence : ℚ
  reason : String
deriving DecidableEq

/-- The dict returned by check_statement. -/
structure CheckResult where
  overallAccuracy : String
  confidence : ℚ
  details : List ClaimDetail
deriving DecidableEq

/-- FactCheckerAgent._get_accuracy_label with the instance thresholds
high = 0.8, medium = 0.6, low = 0.4. -/
def accuracyLabel (score : ℚ) : String :=
  if score ≥ 0.8 then "Highly Accurate"
  else if score ≥ 0.6 then "Moderately Accurate"
  else if score ≥ 0.4 then "Low Accuracy"
  else "Unverified"

/-- FactCheckerAgent._aggregate_verification_results: empty input yields the
no-claims record; otherwise each result contributes its confidence when
Verified, half its confidence when Misleading and 0.0 otherwise, and the
overall confidence is the mean of the contributions. -/
def aggregateVerificationResults (results : List ClaimVerification) : CheckResult :=
  if results = [] then ⟨"No claims verified", 0, []⟩
  else
    let accuracyScores := results.map (fun r =>
      if r.status = "Verified" then r.confidence
      else if r.status = "Misleading" then r.confidence * 0.5
      else 0)
    let details := results.map (fun r =>
      ClaimDetail.mk r.claim r.status r.confidence r.reason)
    let overall := accuracyScores.sum / (accuracyScores.length : ℚ)
    ⟨accuracyLabel overall, overall, details⟩

/-- FactCheckerAgent.check_statement (the second, overriding definition in the
source): extract claims, short-circuit when none are found, verify each claim
through the cache and aggregate.  The outer try/except never fires in the
embedding because every step is total. -/
def checkStatement (llm : String → Except String String)
    (cache : List (String × ClaimVerification)) (statement : String) :
    CheckResult × List (String × ClaimVerification) × List String :=
  let claims := extractClaims llm statement
  if claims = [] then
    (⟨"No verifiable claims found", 0, []⟩, cache, [])
  else
    let out := processClaims llm claims cache
    (aggregateVerificationResults out.1, out.2.1, out.2.2)

/-! ### Theorems for claims C5 and C8 -/

/-- C5: aggregation contributes confidence per Verified claim, half the
confidence per Misleading claim and 0.0 for every other status, returns the
arithmetic mean of the contributions as the overall confidence, and on the
empty result list returns confidence 0.0 with the no-claims label (and never
raises — the embedding is total by construction). -/
theorem c5_aggregation :
    (∀ results : List ClaimVerification, results ≠ [] →
      (aggregateVerificationResults results).confidence =
        (results.map (fun r =>
          if r.status = "Verified" then r.confidence
          else if r.status = "Misleading" then r.confidence * 0.5
          else 0)).sum / (results.length : ℚ)) ∧
    aggregateVerificationResults [] = ⟨"No claims verified", 0, []⟩ := by
  constructor
  · intro results h
    unfold aggregateVerificationResults
    rw [if_neg h]
    simp [List.length_map]
  · rfl

/-- C5 witness: the mean formula applied to a concrete two-element result
list (one Verified at 0.8, one Misleading at 0.4). -/
theorem c5_aggregation_witness :
    (aggregateVerificationResults
        [⟨"c", "Verified", 4/5, "", []⟩, ⟨"d", "Misleading", 2/5, "", []⟩]).confidence =
      (([⟨"c", "Verified", 4/5, "", []⟩, ⟨"d", "Misleading", 2/5, "", []⟩] :
          List ClaimVerification).map (fun r =>
        if r.status = "Verified" then r.confidence
        else if r.status = "Misleading" then r.confidence * 0.5
        else 0)).sum / 2 :=
  c5_aggregation.1 _ (by simp)

/-- Helper: the reason and corrections blocks never change the parsed
confidence. -/
theorem fcParseLineTail_confidence (st : ClaimVerification) (line : String) :
    (fcParseLineTail st line).confidence = st.confidence := by
  simp only [fcParseLineTail]
  split_ifs <;> rfl

/-- Helper: a numbered line starts with a digit. -/
theorem numbered_has_digit (s : String) (h : numberedShortLine s = true) :
    s.toList.any Char.isDigit = true := by
  unfold numberedShortLine pyStartsWith at h
  simp only [Bool.or_eq_true, List.isPrefixOf_iff_prefix] at h
  rcases h with ((h | h) | h) | h <;>
    · obtain ⟨t, ht⟩ := h
      rw [← ht, List.any_append]
      simp +decide

/-- Helper: stripping keeps characters of the original line. -/
theorem pyStrip_chars_subset (s : String) :
    ∀ c ∈ (pyStrip s).toList, c ∈ s.toList := by
  intro c hc
  unfold pyStrip at hc
  simp only [String.toList] at hc ⊢
  rw [List.mem_reverse] at hc
  have h1 := (List.dropWhile_sublist (l := (s.data.dropWhile Char.isWhitespace).reverse)
    Char.isWhitespace).subset hc
  rw [List.mem_reverse] at h1
  exact (List.dropWhile_sublist Char.isWhitespace).subset h1

/-- Helper: a line with no digit leaves the parsed confidence unchanged. -/
theorem fcParseLine_confidence_of_no_digit (st : ClaimVerification) (rawLine : String)
    (h : rawLine.toList.any Char.isDigit = false) :
    (fcParseLine st rawLine).confidence = st.confidence := by
  have hstrip : (pyStrip rawLine).toList.any Char.isDigit = false := by
    rw [Bool.eq_false_iff]
    intro hany
    rw [List.any_eq_true] at hany
    obtain ⟨c, hc, hdig⟩ := hany
    rw [Bool.eq_false_iff] at h
    exact h (List.any_eq_true.mpr ⟨c, pyStrip_chars_subset rawLine c hc, hdig⟩)
  have hnum : numberedShortLine (pyStrip rawLine) = false := by
    rw [Bool.eq_false_iff]
    intro hn
    rw [numbered_has_digit (pyStrip rawLine) hn] at hstrip
    exact Bool.noConfusion hstrip
  simp only [fcParseLine, hnum, Bool.false_eq_true, if_false, hstrip,
    fcParseLineTail_confidence]
  split_ifs <;> rfl

/-- C8 counterexample: the langchain verifier parses the line
"Confidence: 85" to confidence 85 — the value is stored raw, neither divided
by 100 (which would give 0.85) nor clamped to [0,1]; and the BaseAgent parser
answers 0.5, not 0.0, for a confidence line that fails to parse.  Both
contradict the claimed universal parsing rule. -/
theorem c8_confidence_counterexample :
    (lcParseVerification "Confidence: 85").confidence = 85 ∧
    min 1 (max 0 ((85 : ℚ) / 100)) = 17/20 ∧ (85 : ℚ) ≠ 17/20 ∧
    (baseParseVerificationResponse "confidence: high").confidence = 1/2 ∧
    (1/2 : ℚ) ≠ 0 := by
  refine ⟨?_, ?_, by norm_num, ?_, by norm_num⟩
  · have h : (lcParseVerification "Confidence: 85").confidence
        = ((85:ℕ):ℚ) + ((0:ℕ):ℚ) / 10 ^ (0:ℕ) := rfl
    rw [h]
    norm_num
  · rw [max_eq_right (by norm_num : (0:ℚ) ≤ 85/100), min_eq_right (by norm_num : (85:ℚ)/100 ≤ 1)]
    norm_num
  · have h : (baseParseVerificationResponse "confidence: high").confidence = (0.5:ℚ) := rfl
    rw [h]
    norm_num

/-- C8 (amended): the claimed rule — divide by 100 when the value exceeds 1,
clamp to [0,1], default 0.0 — holds for FactCheckerAgent's parser: a line
whose joined digit/dot characters parse as a number stores the
divided-and-clamped value, and a response whose lines carry no digits leaves
the default 0.0.  The other two cited parsers do not follow it: langchain
ClaimVerifier stores the parsed value raw (no division, no clamping), and
BaseAgent stores the raw value too while substituting 0.5, not 0.0, when a
confidence line fails to parse. -/
theorem c8_confidence_amended :
    (∀ (st : ClaimVerification) (rawLine : String) (x : ℚ),
      numberedShortLine (pyStrip rawLine) = false →
      (pyStrip rawLine).toList.any Char.isDigit = true →
      pyFloat? (digitDotFilter (pyStrip rawLine)) = some x →
      (fcParseLine st rawLine).confidence = min 1 (max 0 (if x > 1 then x / 100 else x))) ∧
    (∀ response : String,
      ((pySplitChar '\n' (pyStrip response)).all
        (fun l => !(l.toList.any Char.isDigit))) = true →
      (parseVerificationResponse response).confidence = 0) ∧
    (∀ (st : LCVerification) (line : String) (x : ℚ),
      pyStartsWith "Confidence:" line = true →
      pyFloat? (pyStrip (pyDrop line 11)) = some x →
      (lcParseLine st line).confidence = x) ∧
    (∀ (st : BaseVerification) (line : String),
      pyIn "status:" (pyLower line) = false →
      pyIn "confidence:" (pyLower line) = true →
      pyFloat? (pyStrip (secondColonField line)) = none →
      (baseParseLine st line).confidence = 1/2) := by
  refine ⟨?_, ?_, ?_, ?_⟩
  · intro st rawLine x hnum hdig hx
    simp only [fcParseLine, hnum, Bool.false_eq_true, if_false, hdig, if_true, hx,
      fcParseLineTail_confidence]
  · intro response hall
    unfold parseVerificationResponse
    rw [List.all_eq_true] at hall
    have hgen : ∀ (lines : List String) (st : ClaimVerification),
        (∀ l ∈ lines, (!(l.toList.any Char.isDigit)) = true) →
        (lines.foldl fcParseLine st).confidence = st.confidence := by
      intro lines
      induction lines with
      | nil => intro st _; rfl
      | cons l rest ih =>
        intro st hl
        rw [List.foldl_cons, ih (fcParseLine st l) (fun x hx => hl x (List.mem_cons_of_mem l hx)),
          fcParseLine_confidence_of_no_digit st l
            (by have h2 := hl l (List.mem_cons_self l rest); rwa [Bool.not_eq_eq_eq_not, Bool.not_true] at h2)]
    exact hgen _ _ hall
  · intro st line x hpre hx
    have hstat : pyStartsWith "Status:" line = false := by
      unfold pyStartsWith at hpre ⊢
      rw [List.isPrefixOf_iff_prefix] at hpre
      obtain ⟨t, ht⟩ := hpre
      rw [← ht]
      rfl
    unfold lcParseLine
    rw [hstat, hpre]
    simp only [Bool.false_eq_true, if_false, if_true, hx]
  · intro st line hstat hconf hx
    simp only [baseParseLine, hstat, hconf, hx, Bool.false_eq_true, if_false, if_true]
    norm_num

/-- C8 witness: the four amended facts at concrete lines — "Confidence: 0.85"
for the FactCheckerAgent rule, the digitless response "Status: Verified" for
the 0.0 default, "Confidence: 85" for the raw langchain value and
"confidence: high" for the BaseAgent 0.5 fallback. -/
theorem c8_confidence_amended_witness :
    (fcParseLine fcParseInit "Confidence: 0.85").confidence =
      min 1 (max 0 (if (17/20 : ℚ) > 1 then (17/20 : ℚ) / 100 else 17/20)) ∧
    (parseVerificationResponse "Status: Verified").confidence = 0 ∧
    (lcParseLine ⟨"Unverified", 0, "", []⟩ "Confidence: 85").confidence = 85 ∧
    (baseParseLine ⟨"Unverified", 0, ""⟩ "confidence: high").confidence = 1/2 :=
  ⟨c8_confidence_amended.1 fcParseInit "Confidence: 0.85" (17/20) (by decide) (by decide)
      (by
        have h : pyFloat? (digitDotFilter (pyStrip "Confidence: 0.85"))
            = some (((0:ℕ):ℚ) + ((85:ℕ):ℚ) / 10 ^ (2:ℕ)) := rfl
        rw [h]
        norm_num),
   c8_confidence_amended.2.1 "Status: Verified" (by decide),
   c8_confidence_amended.2.2.1 ⟨"Unverified", 0, "", []⟩ "Confidence: 85" 85 (by decide)
      (by
        have h : pyFloat? (pyStrip (pyDrop "Confidence: 85" 11))
            = some (((85:ℕ):ℚ) + ((0:ℕ):ℚ) / 10 ^ (0:ℕ)) := rfl
        rw [h]
        norm_num),
   c8_confidence_amended.2.2.2 ⟨"Unverified", 0, ""⟩ "confidence: high" (by decide) (by decide)
      rfl⟩

/-! ### Theorems for claim C10 -/

/-- Helper: one parsed line either keeps the running confidence or stores a
clamped value. -/
theorem fcParseLine_confidence_cases (st : ClaimVerification) (rawLine : String) :
    (fcParseLine st rawLine).confidence = st.confidence ∨
    ∃ v : ℚ, (fcParseLine st rawLine).confidence = min 1 (max 0 v) := by
  simp only [fcParseLine]
  split_ifs <;> (try split) <;>
    first
      | exact Or.inr ⟨_, (fcParseLineTail_confidence _ _).trans rfl⟩
      | exact Or.inl ((fcParseLineTail_confidence _ _).trans rfl)
      | exact Or.inl rfl

/-- Helper: the parsed confidence of a whole response lies in [0, 1]. -/
theorem parse_confidence_bounds (response : String) :
    0 ≤ (parseVerificationResponse response).confidence ∧
      (parseVerificationResponse response).confidence ≤ 1 := by
  unfold parseVerificationResponse
  have hgen : ∀ (lines : List String) (st : ClaimVerification),
      0 ≤ st.confidence → st.confidence ≤ 1 →
      0 ≤ (lines.foldl fcParseLine st).confidence ∧
        (lines.foldl fcParseLine st).confidence ≤ 1 := by
    intro lines
    induction lines with
    | nil => intro st h0 h1; exact ⟨h0, h1⟩
    | cons l rest ih =>
      intro st h0 h1
      rw [List.foldl_cons]
      rcases fcParseLine_confidence_cases st l with h | ⟨v, h⟩
      · exact ih _ (h ▸ h0) (h ▸ h1)
      · refine ih _ ?_ ?_ <;> rw [h]
        · exact le_min (by norm_num) (le_max_left 0 v)
        · exact min_le_left 1 _
  exact hgen _ fcParseInit (by norm_num [fcParseInit]) (by norm_num [fcParseInit])

/-- Helper: a verification record built by _verify_claim carries its claim key
and a confidence in [0, 1]. -/
theorem verifyClaim_claim_and_bounds (llm : String → Except String String) (claim : String) :
    (verifyClaim llm claim).claim = claim ∧
    0 ≤ (verifyClaim llm claim).confidence ∧ (verifyClaim llm claim).confidence ≤ 1 := by
  unfold verifyClaim
  cases llm (verificationPrompt claim) with
  | error e => exact ⟨rfl, by norm_num, by norm_num⟩
  | ok response => exact ⟨rfl, (parse_confidence_bounds response).1, (parse_confidence_bounds response).2⟩

/-- The cache invariant used below: every cached confidence lies in [0, 1]. -/
def cacheConfBounded (cache : List (String × ClaimVerification)) : Prop :=
  ∀ entry ∈ cache, 0 ≤ entry.2.confidence ∧ entry.2.confidence ≤ 1

/-- Helper: the claim loop produces records with confidences in [0, 1] when
the cache satisfies the invariant. -/
theorem processClaims_confidence_bounds (llm : String → Except String String)
    (claims : List String) :
    ∀ cache, cacheConfBounded cache →
      ∀ r ∈ (processClaims llm claims cache).1, 0 ≤ r.confidence ∧ r.confidence ≤ 1 := by
  induction claims with
  | nil => intro cache _ r hr; cases hr
  | cons claim rest ih =>
    intro cache hcache r hr
    unfold processClaims at hr
    cases hfind : cacheFind? cache claim with
    | some r0 =>
      rw [hfind] at hr
      rcases List.mem_cons.mp hr with h | h
      · have hmem : ∃ entry ∈ cache, entry.2 = r0 := by
          unfold cacheFind? at hfind
          cases he : cache.find? (fun entry => entry.1 == claim) with
          | none => rw [he] at hfind; cases hfind
          | some entry =>
            rw [he] at hfind
            exact ⟨entry, List.mem_of_find?_eq_some he, by simpa using hfind⟩
        obtain ⟨entry, hm, hentry⟩ := hmem
        rw [h, ← hentry]
        exact hcache entry hm
      · exact ih cache hcache r h
    | none =>
      rw [hfind] at hr
      rcases List.mem_cons.mp hr with h | h
      · subst h
        exact (verifyClaim_claim_and_bounds llm claim).2
      · refine ih _ ?_ r h
        intro entry he
        rcases List.mem_append.mp he with h2 | h2
        · exact hcache entry h2
        · rcases List.mem_singleton.mp h2 with rfl
          exact (verifyClaim_claim_and_bounds llm claim).2

/-- Helper: a list of values in [0, 1] has a sum between 0 and its length. -/
theorem sum_bounds_of_mem_unit (l : List ℚ) (h : ∀ x ∈ l, 0 ≤ x ∧ x ≤ 1) :
    0 ≤ l.sum ∧ l.sum ≤ (l.length : ℚ) := by
  induction l with
  | nil => simp
  | cons x rest ih =>
    have hx := h x (List.mem_cons_self x rest)
    have hrest := ih (fun y hy => h y (List.mem_cons_of_mem x hy))
    rw [List.sum_cons, List.length_cons]
    push_cast
    constructor <;> linarith [hx.1, hx.2, hrest.1, hrest.2]

/-- Helper: aggregation of in-range records yields an overall confidence in
[0, 1]. -/
theorem aggregate_confidence_bounds (results : List ClaimVerification)
    (h : ∀ r ∈ results, 0 ≤ r.confidence ∧ r.confidence ≤ 1) :
    0 ≤ (aggregateVerificationResults results).confidence ∧
      (aggregateVerificationResults results).confidence ≤ 1 := by
  unfold aggregateVerificationResults
  by_cases hr : results = []
  · rw [if_pos hr]
    norm_num
  · rw [if_neg hr]
    have hscores : ∀ x ∈ results.map (fun r =>
        if r.status = "Verified" then r.confidence
        else if r.status = "Misleading" then r.confidence * 0.5
        else 0), 0 ≤ x ∧ x ≤ 1 := by
      intro x hx
      rcases List.mem_map.mp hx with ⟨r, hmem, hmap⟩
      have hb := h r hmem
      rw [← hmap]
      split_ifs
      · exact hb
      · constructor <;> nlinarith [hb.1, hb.2]
      · norm_num
    have hsum := sum_bounds_of_mem_unit _ hscores
    have hlen : 0 < (results.length : ℚ) := by
      have : results.length ≠ 0 := fun hn => hr (List.eq_nil_of_length_eq_zero hn)
      positivity
    rw [List.length_map] at hsum
    constructor
    · exact div_nonneg hsum.1 (le_of_lt (by simpa using hlen))
    · rw [div_le_one (by simpa using hlen)]
      simpa using hsum.2

/-- C10: checkStatement never raises (the embedding is total for every
generator behaviour, including raising and arbitrary text) and always returns
a record with an accuracy label, a confidence and a details list; when claim
extraction yields no claims it returns confidence 0.0 with an empty details
list, and the returned confidence always lies in [0, 1] when the cache
confidences do. -/
theorem c10_check_statement_total :
    (∀ (llm : String → Except String String) cache statement,
      extractClaims llm statement = [] →
      checkStatement llm cache statement =
        (⟨"No verifiable claims found", 0, []⟩, cache, [])) ∧
    (∀ (llm : String → Except String String) cache statement,
      cacheConfBounded cache →
      0 ≤ (checkStatement llm cache statement).1.confidence ∧
        (checkStatement llm cache statement).1.confidence ≤ 1) := by
  constructor
  · intro llm cache statement h
    simp [checkStatement, h]
  · intro llm cache statement hcache
    by_cases hclaims : extractClaims llm statement = []
    · simp only [checkStatement, hclaims]
      norm_num
    · simp only [checkStatement, if_neg hclaims]
      exact aggregate_confidence_bounds _
        (processClaims_confidence_bounds llm (extractClaims llm statement) cache hcache)

/-- C10 witness: a generator that raises on every call — extraction returns no
claims, and checkStatement returns the no-claims record with confidence 0.0
and empty details, in range. -/
theorem c10_check_statement_total_witness :
    checkStatement (fun _ => Except.error "backend down") [] "The film won three awards." =
      (⟨"No verifiable claims found", 0, []⟩, [], []) ∧
    (0 ≤ (checkStatement (fun _ => Except.error "backend down") []
        "The film won three awards.").1.confidence ∧
      (checkStatement (fun _ => Except.error "backend down") []
        "The film won three awards.").1.confidence ≤ 1) :=
  ⟨c10_check_statement_total.1 _ _ _ rfl,
   c10_check_statement_total.2 _ _ _ (fun entry he => absurd he (List.not_mem_nil entry))⟩

/-! ### Theorems for claim C2 -/

/-- The invariant the source maintains on verified_facts: every stored record
carries its own key as claim. -/
def cacheWF (cache : List (String × ClaimVerification)) : Prop :=
  ∀ entry ∈ cache, entry.2.claim = entry.1

/-- The record check_statement ends up using for a claim: the cached one when
present, the freshly verified one otherwise. -/
def resolvedRecord (llm : String → Except String String)
    (cache : List (String × ClaimVerification)) (c : String) : ClaimVerification :=
  match cacheFind? cache c with
  | some r => r
  | none => verifyClaim llm c

/-- Helper: a cache hit in a well-formed cache returns a record keyed by the
claim. -/
theorem cacheFind?_claim_of_wf (cache : List (String × ClaimVerification))
    (c : String) (r : ClaimVerification) (hwf : cacheWF cache)
    (h : cacheFind? cache c = some r) : r.claim = c := by
  unfold cacheFind? at h
  cases he : cache.find? (fun entry => entry.1 == c) with
  | none => rw [he] at h; cases h
  | some entry =>
    rw [he] at h
    have hkey : entry.1 = c := by
      have := List.find?_some he
      simpa using this
    have hr : entry.2 = r := by simpa using h
    rw [← hr, hwf entry (List.mem_of_find?_eq_some he), hkey]

/-- Helper: inserting never removes an existing cache hit. -/
theorem cacheFind?_insert_of_some (cache : List (String × ClaimVerification))
    (k : String) (r : ClaimVerification) (k2 : String) (r2 : ClaimVerification)
    (h : cacheFind? cache k = some r) :
    cacheFind? (cacheInsert cache k2 r2) k = some r := by
  obtain ⟨e, he, h2⟩ : ∃ e, cache.find? (fun entry => entry.1 == k) = some e ∧ e.2 = r := by
    cases he : cache.find? (fun entry => entry.1 == k) with
    | none => simp [cacheFind?, he] at h
    | some e => exact ⟨e, rfl, by simpa [cacheFind?, he] using h⟩
  simp [cacheFind?, cacheInsert, List.find?_append, he, h2]

/-- Helper: inserting a key makes it found. -/
theorem cacheFind?_insert_self (cache : List (String × ClaimVerification))
    (k : String) (r : ClaimVerification) (h : cacheFind? cache k = none) :
    cacheFind? (cacheInsert cache k r) k = some r := by
  have he : cache.find? (fun entry => entry.1 == k) = none := by
    cases he : cache.find? (fun entry => entry.1 == k) with
    | some e => simp [cacheFind?, he] at h
    | none => rfl
  simp [cacheFind?, cacheInsert, List.find?_append, he, List.find?]

/-- Helper: inserting a different key keeps an absent key absent. -/
theorem cacheFind?_insert_ne_none (cache : List (String × ClaimVerification))
    (k k2 : String) (r2 : ClaimVerification)
    (h : cacheFind? cache k = none) (hne : k2 ≠ k) :
    cacheFind? (cacheInsert cache k2 r2) k = none := by
  have he : cache.find? (fun entry => entry.1 == k) = none := by
    cases he : cache.find? (fun entry => entry.1 == k) with
    | some e => simp [cacheFind?, he] at h
    | none => rfl
  simp [cacheFind?, cacheInsert, List.find?_append, he, List.find?,
    beq_eq_false_iff_ne.mpr hne]

/-- Helper: inserting a record keyed by its claim preserves well-formedness. -/
theorem cacheInsert_wf (cache : List (String × ClaimVerification))
    (k : String) (r : ClaimVerification) (hwf : cacheWF cache) (hr : r.claim = k) :
    cacheWF (cacheInsert cache k r) := by
  intro entry he
  rcases List.mem_append.mp he with h2 | h2
  · exact hwf entry h2
  · rcases List.mem_singleton.mp h2 with rfl
    exact hr

/-- Helper: the claim loop only grows the cache. -/
theorem processClaims_find_mono (llm : String → Except String String)
    (claims : List String) :
    ∀ cache k r, cacheFind? cache k = some r →
      cacheFind? (processClaims llm claims cache).2.1 k = some r := by
  induction claims with
  | nil => intro cache k r h; exact h
  | cons c rest ih =>
    intro cache k r h
    cases hfind : cacheFind? cache c with
    | some r0 => simpa only [processClaims, hfind] using ih cache k r h
    | none =>
      simpa only [processClaims, hfind] using
        ih _ k r (cacheFind?_insert_of_some cache k r c (verifyClaim llm c) h)

/-- Helper: after processing a list containing an uncached claim, the cache
maps that claim to its freshly verified record. -/
theorem processClaims_find_after (llm : String → Except String String)
    (claims : List String) :
    ∀ cache k, cacheFind? cache k = none → k ∈ claims →
      cacheFind? (processClaims llm claims cache).2.1 k = some (verifyClaim llm k) := by
  induction claims with
  | nil => intro cache k _ hk; cases hk
  | cons c rest ih =>
    intro cache k hk hmem
    cases hfind : cacheFind? cache c with
    | some r0 =>
      have hck : c ≠ k := by
        intro he
        rw [he, hk] at hfind
        cases hfind
      have hkrest : k ∈ rest := by
        rcases List.mem_cons.mp hmem with h | h
        · exact absurd h.symm hck
        · exact h
      simpa only [processClaims, hfind] using ih cache k hk hkrest
    | none =>
      by_cases hck : c = k
      · subst hck
        have h2 := cacheFind?_insert_self cache c (verifyClaim llm c) hk
        simpa only [processClaims, hfind] using
          processClaims_find_mono llm rest _ c (verifyClaim llm c) h2
      · have h2 := cacheFind?_insert_ne_none cache k c (verifyClaim llm c) hk hck
        have hkrest : k ∈ rest := by
          rcases List.mem_cons.mp hmem with h | h
          · exact absurd h.symm hck
          · exact h
        simpa only [processClaims, hfind] using ih _ k h2 hkrest

/-- Helper: a claim already in the cache is never sent to verification. -/
theorem processClaims_not_called (llm : String → Except String String)
    (claims : List String) :
    ∀ cache k r, cacheFind? cache k = some r →
      k ∉ (processClaims llm claims cache).2.2 := by
  induction claims with
  | nil => intro cache k r _ hk; cases hk
  | cons c rest ih =>
    intro cache k r h
    cases hfind : cacheFind? cache c with
    | some r0 =>
      simpa only [processClaims, hfind] using ih cache k r h
    | none =>
      simp only [processClaims, hfind, List.mem_cons, not_or]
      constructor
      · intro he
        rw [← he, h] at hfind
        cases hfind
      · exact ih _ k r (cacheFind?_insert_of_some cache k r c (verifyClaim llm c) h)

/-- Helper: an uncached claim in the list is sent to verification exactly
once. -/
theorem processClaims_count (llm : String → Except String String)
    (claims : List String) :
    ∀ cache k, cacheFind? cache k = none → k ∈ claims →
      ((processClaims llm claims cache).2.2).count k = 1 := by
  induction claims with
  | nil => intro cache k _ hk; cases hk
  | cons c rest ih =>
    intro cache k hk hmem
    cases hfind : cacheFind? cache c with
    | some r0 =>
      have hck : c ≠ k := by
        intro he
        rw [he, hk] at hfind
        cases hfind
      have hkrest : k ∈ rest := by
        rcases List.mem_cons.mp hmem with h | h
        · exact absurd h.symm hck
        · exact h
      simpa only [processClaims, hfind] using ih cache k hk hkrest
    | none =>
      by_cases hck : c = k
      · subst hck
        have h2 := cacheFind?_insert_self cache c (verifyClaim llm c) hk
        have hnot := processClaims_not_called llm rest _ c (verifyClaim llm c) h2
        simp only [processClaims, hfind, List.count_cons_self,
          List.count_eq_zero_of_not_mem hnot]
      · have h2 := cacheFind?_insert_ne_none cache k c (verifyClaim llm c) hk hck
        have hkrest : k ∈ rest := by
          rcases List.mem_cons.mp hmem with h | h
          · exact absurd h.symm hck
          · exact h
        have := ih _ k h2 hkrest
        simp only [processClaims, hfind]
        rw [List.count_cons_of_ne (fun he => hck he.symm)]
        exact this

/-- Helper: the claim loop preserves cache well-formedness. -/
theorem processClaims_wf (llm : String → Except String String) (claims : List String) :
    ∀ cache, cacheWF cache → cacheWF (processClaims llm claims cache).2.1 := by
  induction claims with
  | nil => intro cache h; exact h
  | cons c rest ih =>
    intro cache hwf
    cases hfind : cacheFind? cache c with
    | some r0 => simpa only [processClaims, hfind] using ih cache hwf
    | none =>
      simpa only [processClaims, hfind] using
        ih _ (cacheInsert_wf cache c (verifyClaim llm c) hwf
          (verifyClaim_claim_and_bounds llm c).1)

/-- Helper: every produced record keyed by a claim is the resolved record of
that claim against the starting cache. -/
theorem processClaims_results_resolved (llm : String → Except String String)
    (claims : List String) :
    ∀ cache c, cacheWF cache →
      ∀ r ∈ (processClaims llm claims cache).1, r.claim = c →
        r = resolvedRecord llm cache c := by
  induction claims with
  | nil => intro cache c _ r hr; cases hr
  | cons d rest ih =>
    intro cache c hwf r hr hclaim
    cases hfind : cacheFind? cache d with
    | some rd =>
      rw [processClaims, hfind] at hr
      rcases List.mem_cons.mp hr with h | h
      · have hd : rd.claim = d := cacheFind?_claim_of_wf cache d rd hwf hfind
        have hdc : d = c := by rw [← hd, ← h, hclaim]
        rw [h]
        unfold resolvedRecord
        rw [← hdc, hfind]
      · exact ih cache c hwf r h hclaim
    | none =>
      rw [processClaims, hfind] at hr
      rcases List.mem_cons.mp hr with h | h
      · have hd : (verifyClaim llm d).claim = d := (verifyClaim_claim_and_bounds llm d).1
        have hdc : d = c := by rw [← hd, ← h, hclaim]
        rw [h]
        unfold resolvedRecord
        rw [← hdc, hfind, hdc]
      · have hwf2 : cacheWF (cacheInsert cache d (verifyClaim llm d)) :=
          cacheInsert_wf cache d (verifyClaim llm d) hwf
            (verifyClaim_claim_and_bounds llm d).1
        have hres := ih _ c hwf2 r h hclaim
        rw [hres]
        unfold resolvedRecord
        cases hc : cacheFind? cache c with
        | some x =>
          rw [cacheFind?_insert_of_some cache c x d (verifyClaim llm d) hc]
        | none =>
          by_cases hdc : d = c
          · subst hdc
            rw [cacheFind?_insert_self cache d (verifyClaim llm d) hc]
          · rw [cacheFind?_insert_ne_none cache c d (verifyClaim llm d) hc hdc]

/-- Helper: every detail entry of an aggregation comes from one input
record. -/
theorem aggregate_details_mem (results : List ClaimVerification) :
    ∀ d ∈ (aggregateVerificationResults results).details,
      ∃ r ∈ results, d = ⟨r.claim, r.status, r.confidence, r.reason⟩ := by
  intro d hd
  unfold aggregateVerificationResults at hd
  by_cases hres : results = []
  · rw [if_pos hres] at hd
    cases hd
  · rw [if_neg hres] at hd
    simp only at hd
    rcases List.mem_map.mp hd with ⟨r, hmem, hmap⟩
    exact ⟨r, hmem, hmap.symm⟩

/-- Helper: checkStatement on a statement with extracted claims runs the claim
loop and aggregates. -/
theorem checkStatement_eq (llm : String → Except String String)
    (cache : List (String × ClaimVerification)) (s : String)
    (h : extractClaims llm s ≠ []) :
    checkStatement llm cache s =
      (aggregateVerificationResults (processClaims llm (extractClaims llm s) cache).1,
       (processClaims llm (extractClaims llm s) cache).2.1,
       (processClaims llm (extractClaims llm s) cache).2.2) := by
  simp only [checkStatement, if_neg h]

/-- C2: within one fact-checker instance, when two checkStatement calls
extract an identical claim string that is not yet cached, the verification
step runs exactly once for that string across both calls (the count of that
claim in the instrumented verification-call lists is one), and every detail
entry for that claim in either returned result carries the status and
confidence of the single verification. -/
theorem c2_memoization (llm : String → Except String String)
    (cache₀ : List (String × ClaimVerification)) (s₁ s₂ c : String)
    (hwf : cacheWF cache₀)
    (hnone : cacheFind? cache₀ c = none)
    (h₁ : c ∈ extractClaims llm s₁)
    (h₂ : c ∈ extractClaims llm s₂) :
    ((checkStatement llm cache₀ s₁).2.2 ++
        (checkStatement llm (checkStatement llm cache₀ s₁).2.1 s₂).2.2).count c = 1 ∧
    (∀ d ∈ (checkStatement llm cache₀ s₁).1.details, d.claim = c →
      d.status = (verifyClaim llm c).status ∧ d.confidence = (verifyClaim llm c).confidence) ∧
    (∀ d ∈ (checkStatement llm (checkStatement llm cache₀ s₁).2.1 s₂).1.details, d.claim = c →
      d.status = (verifyClaim llm c).status ∧ d.confidence = (verifyClaim llm c).confidence) := by
  have hne₁ : extractClaims llm s₁ ≠ [] := by
    intro h
    rw [h] at h₁
    cases h₁
  have hne₂ : extractClaims llm s₂ ≠ [] := by
    intro h
    rw [h] at h₂
    cases h₂
  have e₁ := checkStatement_eq llm cache₀ s₁ hne₁
  have hcache₁ : (checkStatement llm cache₀ s₁).2.1 =
      (processClaims llm (extractClaims llm s₁) cache₀).2.1 := by rw [e₁]
  have hcalls₁ : (checkStatement llm cache₀ s₁).2.2 =
      (processClaims llm (extractClaims llm s₁) cache₀).2.2 := by rw [e₁]
  have hres₁ : (checkStatement llm cache₀ s₁).1 =
      aggregateVerificationResults (processClaims llm (extractClaims llm s₁) cache₀).1 := by
    rw [e₁]
  have hX : checkStatement llm (checkStatement llm cache₀ s₁).2.1 s₂ =
      checkStatement llm (processClaims llm (extractClaims llm s₁) cache₀).2.1 s₂ := by
    rw [hcache₁]
  have e₂ := checkStatement_eq llm (processClaims llm (extractClaims llm s₁) cache₀).2.1 s₂ hne₂
  have hcalls₂ : (checkStatement llm (checkStatement llm cache₀ s₁).2.1 s₂).2.2 =
      (processClaims llm (extractClaims llm s₂)
        (processClaims llm (extractClaims llm s₁) cache₀).2.1).2.2 := by
    rw [hX, e₂]
  have hres₂ : (checkStatement llm (checkStatement llm cache₀ s₁).2.1 s₂).1 =
      aggregateVerificationResults (processClaims llm (extractClaims llm s₂)
        (processClaims llm (extractClaims llm s₁) cache₀).2.1).1 := by
    rw [hX, e₂]
  have hfound : cacheFind? (processClaims llm (extractClaims llm s₁) cache₀).2.1 c =
      some (verifyClaim llm c) :=
    processClaims_find_after llm (extractClaims llm s₁) cache₀ c hnone h₁
  have hwf₁ : cacheWF (processClaims llm (extractClaims llm s₁) cache₀).2.1 :=
    processClaims_wf llm (extractClaims llm s₁) cache₀ hwf
  refine ⟨?_, ?_, ?_⟩
  · rw [List.count_append, hcalls₁, hcalls₂]
    rw [processClaims_count llm (extractClaims llm s₁) cache₀ c hnone h₁]
    rw [List.count_eq_zero_of_not_mem
      (processClaims_not_called llm (extractClaims llm s₂) _ c (verifyClaim llm c) hfound)]
  · intro d hd hclaim
    rw [hres₁] at hd
    obtain ⟨r, hmem, hform⟩ := aggregate_details_mem _ d hd
    have hrc : r.claim = c := by rw [hform] at hclaim; exact hclaim
    have hres := processClaims_results_resolved llm (extractClaims llm s₁) cache₀ c hwf r hmem hrc
    rw [hform, hres]
    unfold resolvedRecord
    rw [hnone]
    exact ⟨rfl, rfl⟩
  · intro d hd hclaim
    rw [hres₂] at hd
    obtain ⟨r, hmem, hform⟩ := aggregate_details_mem _ d hd
    have hrc : r.claim = c := by rw [hform] at hclaim; exact hclaim
    have hres := processClaims_results_resolved llm (extractClaims llm s₂) _ c hwf₁ r hmem hrc
    rw [hform, hres]
    unfold resolvedRecord
    rw [hfound]
    exact ⟨rfl, rfl⟩

/-- The generator used by the C2 witness: extraction prompts give one fixed
claim line, verification prompts a Verified status line. -/
def memoWitnessGen : String → Except String String := fun p =>
  if pyStartsWith "Extract" p then Except.ok "abcdefghijkl"
  else Except.ok "Status: Verified"

/-- C2 witness: two checks of the same statement against an empty cache — the
shared extracted claim is verified exactly once. -/
theorem c2_memoization_witness :
    ((checkStatement memoWitnessGen [] "s").2.2 ++
        (checkStatement memoWitnessGen (checkStatement memoWitnessGen [] "s").2.1 "s").2.2).count
      "abcdefghijkl" = 1 :=
  (c2_memoization memoWitnessGen [] "s" "s" "abcdefghijkl"
    (fun entry he => absurd he (List.not_mem_nil entry)) rfl
    (by decide) (by decide)).1

/-! ### Orchestration loops (src/agents/debate_system.py and
langchain_debatesys/src/tools/debate_system.py)

The src orchestrator DebateSystem.run_debate_round passes Python dicts where
strings are expected: moderate() and the generate_* methods all return dicts
of the form with content and metadata keys, and run_debate_round feeds those
dicts to validate_content, which calls content.lower().  A dict has no lower
attribute, so the very first validate_content(intro) raises AttributeError,
caught by the round-level except which returns self.debate_log unchanged.
The embedding models dict values with an opaque marker (their fields are
never read on any reachable path) and exceptions with an Except monad whose
error value carries the state at the raise, mirroring the handler that
returns the accumulated log. -/

/-- A Python value as seen by validate_content: a string, or a dict (the
return value of moderate / generate_opening_statement / generate_rebuttal /
generate_closing_statement). -/
inductive PyV where
  | pstr : String → PyV
  | pdict : PyV
deriving DecidableEq

/-- One entry of DebateSystem.debate_log (the timestamp is elided; the
content slot receives whatever value log_event is given). -/
structure SrcEvent where
  kind : String
  content : PyV
deriving DecidableEq

/-- Ghost record of one generate_rebuttal invocation: which debater was asked
and which opponent-argument value was passed. -/
structure SrcRebuttalCall where
  debater : String
  argPassed : PyV
deriving DecidableEq

/-- The mutable state of one round: the debate log plus the ghost list of
rebuttal calls. -/
abbrev SrcState := List SrcEvent × List SrcRebuttalCall

/-- DebateSystem.validate_content: on a string, the inappropriate-term scan;
on a dict, content.lower() raises AttributeError. -/
def validateContent : PyV → Except String Bool
  | .pstr content =>
    Except.ok (!(["violent", "abusive", "hate", "discriminatory",
      "threatening", "explicit", "offensive"].any
        (fun term => pyIn term (pyLower content))))
  | .pdict => Except.error "AttributeError: dict has no attribute lower"

/-- DebateSystem.log_event (timestamp elided). -/
def logEvent (st : SrcState) (kind : String) (content : PyV) : SrcState :=
  (st.1 ++ [⟨kind, content⟩], st.2)

/-- Python self.debate_log[-2]: the second-to-last entry, raising IndexError
when the log holds fewer than two events. -/
def pyNegIndex2 (log : List SrcEvent) : Except String SrcEvent :=
  if h : 2 ≤ log.length then Except.ok (log.get ⟨log.length - 2, by omega⟩)
  else Except.error "IndexError"

/-- self.fact_checker.check_facts(...): FactCheckerAgent has no method named
check_facts (the method is check_statement), so the attribute lookup raises
AttributeError. -/
def checkFactsMissing : Except String PyV := Except.error "AttributeError: check_facts"

/-- The fact-check block guarded by parameters[fact_checking]. -/
def srcFactCheck (factChecking : Bool) (st : SrcState) : Except SrcState SrcState :=
  if factChecking then
    match checkFactsMissing with
    | .error _ => throw st
    | .ok factCheck => return logEvent st "FACT_CHECK" factCheck
  else
    return st

/-- The per-debater opening block of run_debate_round:
generate_opening_statement returns a dict, which is fed to validate_content. -/
def srcOpening (factChecking : Bool) (debaterKind : String) (st : SrcState) :
    Except SrcState SrcState := do
  let statement := PyV.pdict
  match validateContent statement with
  | .error _ => throw st
  | .ok valid =>
    if valid then
      srcFactCheck factChecking (logEvent st debaterKind statement)
    else
      return st

/-- One iteration of the rebuttal loop of run_debate_round: the Pro rebuttal
is generated against debate_log[-2].content (whatever event that is), the Con
rebuttal against the Pro rebuttal value just produced (a dict). -/
def srcRebuttalRound (factChecking : Bool) (st : SrcState) : Except SrcState SrcState := do
  match pyNegIndex2 st.1 with
  | .error _ => throw st
  | .ok prevEvent =>
    let st : SrcState := (st.1, st.2 ++ [⟨"Proponent", prevEvent.content⟩])
    let proRebuttal := PyV.pdict
    match validateContent proRebuttal with
    | .error _ => throw st
    | .ok valid1 => do
      let st ←
        if valid1 then
          srcFactCheck factChecking (logEvent st "PROPONENT_REBUTTAL" proRebuttal)
        else
          pure st
      let st : SrcState := (st.1, st.2 ++ [⟨"Opponent", proRebuttal⟩])
      let conRebuttal := PyV.pdict
      match validateContent conRebuttal with
      | .error _ => throw st
      | .ok valid2 =>
        if valid2 then
          srcFactCheck factChecking (logEvent st "OPPONENT_REBUTTAL" conRebuttal)
        else
          return st

/-- The for-loop over parameters[debate_rounds]. -/
def srcRebuttalLoop (factChecking : Bool) : ℕ → SrcState → Except SrcState SrcState
  | 0, st => return st
  | n + 1, st => do
    let st ← srcRebuttalRound factChecking st
    srcRebuttalLoop factChecking n st

/-- The per-debater closing block (no fact check in the source here). -/
def srcClosing (debaterKind : String) (st : SrcState) : Except SrcState SrcState := do
  let closing := PyV.pdict
  match validateContent closing with
  | .error _ => throw st
  | .ok valid =>
    if valid then
      return logEvent st (debaterKind ++ "_CLOSING") closing
    else
      return st

/-- The DebateSystem parameters read by run_debate_round. -/
structure SrcParams where
  debateRounds : ℕ
  factChecking : Bool
deriving DecidableEq

/-- The try-block of DebateSystem.run_debate_round.  The generators never
appear as parameters: every generated value on this path is a dict, and no
dict field is ever read before the first raise. -/
def roundBody (params : SrcParams) (log₀ : List SrcEvent) : Except SrcState SrcState := do
  let st : SrcState := (log₀, [])
  let intro := PyV.pdict
  match validateContent intro with
  | .error _ => throw st
  | .ok valid => do
    let st := if valid then logEvent st "MODERATOR" intro else st
    let st ← srcOpening params.factChecking "PROPONENT" st
    let st ← srcOpening params.factChecking "OPPONENT" st
    let st ← srcRebuttalLoop params.factChecking params.debateRounds st
    let st ← srcClosing "PROPONENT" st
    let st ← srcClosing "OPPONENT" st
    let closing := PyV.pdict
    match validateContent closing with
    | .error _ => throw st
    | .ok valid2 =>
      return if valid2 then logEvent st "MODERATOR" closing else st

/-- DebateSystem.run_debate_round: the try-block with the except handler that
returns self.debate_log as accumulated at the raise. -/
def runDebateRound (params : SrcParams) (log₀ : List SrcEvent) : SrcState :=
  match roundBody params log₀ with
  | .ok st => st
  | .error st => st

/-- One entry of the langchain debate_log (metadata and timestamp elided:
the opponent-argument scan reads only type and content). -/
structure LCDebEvent where
  kind : String
  content : String
deriving DecidableEq

/-- Ghost record of one langchain generate_rebuttal invocation. -/
structure LCRebCall where
  debater : String
  opponentTag : String
  logBefore : List LCDebEvent
  argPassed : String
deriving DecidableEq

/-- The langchain orchestrator state: log plus ghost call list. -/
structure LCState where
  log : List LCDebEvent
  calls : List LCRebCall
deriving DecidableEq

/-- The external generation bundle of the langchain system: the content each
chain returns for a turn (each chain catches its own exceptions and always
returns a content string). -/
structure LCGens where
  moderateIntro : String → String
  generateOpening : String → String → String
  generateRebuttal : String → String → String → String
  generateClosing : String → String → String
  factCheckRender : String → String
  moderateIntervention : String → String
  moderateClosing : String → String

/-- The langchain run_debate session configuration. -/
structure LCConfig where
  debateRounds : ℕ
  realTimeFactCheck : Bool
deriving DecidableEq

/-- Python name.upper(). -/
def pyUpper (s : String) : String := ⟨s.toList.map Char.toUpper⟩

/-- The opponent-argument resolution of langchain run_debate: filter the log
for events whose type equals the opponent role tag, take the last, or the
empty string when there is none. -/
def lastOpponentArgument (log : List LCDebEvent) (oppTag : String) : String :=
  let opponentArgs := log.filter (fun e => e.kind == oppTag)
  match opponentArgs.getLast? with
  | some e => e.content
  | none => ""

/-- The resolution as the spec words it: scan the log backward for the most
recent event whose kind matches the opponent role tag; absent any, the empty
string.  Written from the spec, to be compared with the source embedding. -/
def mostRecentOpponentContent (log : List LCDebEvent) (oppTag : String) : String :=
  match log.reverse.find? (fun e => e.kind == oppTag) with
  | some e => e.content
  | none => ""

/-- The FACT_CHECK event appended after a turn when real-time fact checking
is configured. -/
def lcFactCheckEvents (g : LCGens) (cfg : LCConfig) (content : String) : List LCDebEvent :=
  if cfg.realTimeFactCheck then [⟨"FACT_CHECK", g.factCheckRender content⟩] else []

/-- One opening turn of langchain run_debate. -/
def lcOpening (g : LCGens) (cfg : LCConfig) (topic name : String) (st : LCState) : LCState :=
  let statement := g.generateOpening name topic
  let st : LCState := ⟨st.log ++ [⟨pyUpper name, statement⟩], st.calls⟩
  ⟨st.log ++ lcFactCheckEvents g cfg statement, st.calls⟩

/-- One rebuttal turn of langchain run_debate: resolve the last opponent
argument from the log, generate and log the rebuttal (recording the call),
optionally fact-check, then log a moderator intervention when its content is
non-empty. -/
def lcRebuttalTurn (g : LCGens) (cfg : LCConfig) (topic debName oppName : String)
    (st : LCState) : LCState :=
  let lastArgument := lastOpponentArgument st.log (pyUpper oppName)
  let rebuttal := g.generateRebuttal debName topic lastArgument
  let st : LCState :=
    ⟨st.log ++ [⟨pyUpper debName ++ "_REBUTTAL", rebuttal⟩],
     st.calls ++ [⟨debName, pyUpper oppName, st.log, lastArgument⟩]⟩
  let st : LCState := ⟨st.log ++ lcFactCheckEvents g cfg rebuttal, st.calls⟩
  let intervention := g.moderateIntervention topic
  if intervention ≠ "" then ⟨st.log ++ [⟨"MODERATOR", intervention⟩], st.calls⟩ else st

/-- One main round: Proponent versus Opponent, then Opponent versus
Proponent. -/
def lcRound (g : LCGens) (cfg : LCConfig) (topic : String) (st : LCState) : LCState :=
  lcRebuttalTurn g cfg topic "Opponent" "Proponent"
    (lcRebuttalTurn g cfg topic "Proponent" "Opponent" st)

/-- The for-loop over config.debate_rounds. -/
def lcRounds (g : LCGens) (cfg : LCConfig) (topic : String) : ℕ → LCState → LCState
  | 0, st => st
  | n + 1, st => lcRounds g cfg topic n (lcRound g cfg topic st)

/-- One closing turn (with its fact check). -/
def lcClosing (g : LCGens) (cfg : LCConfig) (topic name : String) (st : LCState) : LCState :=
  let closing := g.generateClosing name topic
  let st : LCState := ⟨st.log ++ [⟨pyUpper name ++ "_CLOSING", closing⟩], st.calls⟩
  ⟨st.log ++ lcFactCheckEvents g cfg closing, st.calls⟩

/-- Langchain DebateSystem.run_debate: introduction, two openings, the main
rounds, two closings, then the moderator closing (whose duration and
key-point inputs only feed the generation prompt and are folded into the
generator bundle). -/
def runDebate (g : LCGens) (cfg : LCConfig) (topic : String) : LCState :=
  let st : LCState := ⟨[], []⟩
  let st : LCState := ⟨st.log ++ [⟨"MODERATOR", g.moderateIntro topic⟩], st.calls⟩
  let st := lcOpening g cfg topic "Proponent" st
  let st := lcOpening g cfg topic "Opponent" st
  let st := lcRounds g cfg topic cfg.debateRounds st
  let st := lcClosing g cfg topic "Proponent" st
  let st := lcClosing g cfg topic "Opponent" st
  ⟨st.log ++ [⟨"MODERATOR", g.moderateClosing topic⟩], st.calls⟩

/-- Refinement: the filter-and-take-last of the source equals the backward
scan of the spec. -/
theorem lastOpponent_eq_mostRecent (log : List LCDebEvent) (oppTag : String) :
    lastOpponentArgument log oppTag = mostRecentOpponentContent log oppTag := by
  simp only [lastOpponentArgument, mostRecentOpponentContent, List.filter_getLast?]

/-- The resolution property of claim C1, as a predicate on a session state. -/
def lcCallsResolved (st : LCState) : Prop :=
  ∀ call ∈ st.calls,
    call.argPassed = mostRecentOpponentContent call.logBefore call.opponentTag

/-- Helper: a rebuttal turn records only correctly resolved calls. -/
theorem lcRebuttalTurn_resolved (g : LCGens) (cfg : LCConfig)
    (topic debName oppName : String) (st : LCState) (h : lcCallsResolved st) :
    lcCallsResolved (lcRebuttalTurn g cfg topic debName oppName st) := by
  intro call hc
  have hc2 : call ∈ st.calls ++ [⟨debName, pyUpper oppName, st.log,
      lastOpponentArgument st.log (pyUpper oppName)⟩] := by
    simp only [lcRebuttalTurn] at hc
    split at hc <;> exact hc
  rcases List.mem_append.mp hc2 with h2 | h2
  · exact h call h2
  · rcases List.mem_singleton.mp h2 with rfl
    exact lastOpponent_eq_mostRecent st.log (pyUpper oppName)

/-- Helper: the main rounds record only correctly resolved calls. -/
theorem lcRounds_resolved (g : LCGens) (cfg : LCConfig) (topic : String) :
    ∀ (n : ℕ) (st : LCState), lcCallsResolved st →
      lcCallsResolved (lcRounds g cfg topic n st) := by
  intro n
  induction n with
  | zero => intro st h; exact h
  | succ n ih =>
    intro st h
    exact ih _ (lcRebuttalTurn_resolved g cfg topic "Opponent" "Proponent" _
      (lcRebuttalTurn_resolved g cfg topic "Proponent" "Opponent" st h))

/-- C1 counterexample: a one-round session with fact-checking disabled.  The
claim requires this session to make two generate_rebuttal calls (one per
debater per round), the first receiving the most recent opponent event
content.  The source orchestrator makes zero rebuttal calls and returns an
empty log: validate_content is applied to the dict returned by moderate and
raises AttributeError, which the round-level handler swallows, aborting the
whole round at the introduction. -/
theorem c1_rebuttal_counterexample :
    (runDebateRound ⟨1, false⟩ []).2 = [] ∧
    (runDebateRound ⟨1, false⟩ []).1 = [] ∧
    ¬ ((runDebateRound ⟨1, false⟩ []).2.length = 2 * 1) := by
  refine ⟨rfl, rfl, ?_⟩
  intro h
  exact absurd h (by decide)

/-- C1 (amended): the cited run_debate_round never reaches a rebuttal turn —
for every parameter set and starting log it returns the log unchanged and
performs no generate_rebuttal call, because validate_content(moderate dict)
raises at the introduction.  The claimed resolution holds in the langchain
orchestrator run_debate: every recorded rebuttal call receives exactly the
content of the most recent prior log event whose type equals the opponent
role tag, or the empty string when there is none. -/
theorem c1_rebuttal_resolution_amended :
    (∀ (params : SrcParams) (log₀ : List SrcEvent),
      runDebateRound params log₀ = (log₀, [])) ∧
    (∀ (g : LCGens) (cfg : LCConfig) (topic : String),
      ∀ call ∈ (runDebate g cfg topic).calls,
        call.argPassed = mostRecentOpponentContent call.logBefore call.opponentTag) := by
  constructor
  · intro params log₀
    rfl
  · intro g cfg topic call hc
    have hbase : lcCallsResolved (lcOpening g cfg topic "Opponent"
        (lcOpening g cfg topic "Proponent"
          ⟨[⟨"MODERATOR", g.moderateIntro topic⟩], []⟩)) :=
      fun c hcm => absurd hcm (List.not_mem_nil c)
    exact lcRounds_resolved g cfg topic cfg.debateRounds _ hbase call hc

/-- The constant generator bundle used by the C1 witness. -/
def lcWitnessGens : LCGens where
  moderateIntro := fun _ => "Welcome."
  generateOpening := fun name _ => if name = "Proponent" then "Pro opening." else "Con opening."
  generateRebuttal := fun _ _ _ => "Rebuttal text."
  generateClosing := fun _ _ => "Closing text."
  factCheckRender := fun _ => "ok"
  moderateIntervention := fun _ => ""
  moderateClosing := fun _ => "Thanks."

/-- C1 witness: in a concrete one-round langchain session the Pro rebuttal
call is resolved against the Con opening, and the source orchestrator applied
to the same session shape returns the empty log with no rebuttal calls. -/
theorem c1_rebuttal_resolution_amended_witness :
    runDebateRound ⟨1, false⟩ [] = ([], []) ∧
    (⟨"Proponent", "OPPONENT",
      [⟨"MODERATOR", "Welcome."⟩, ⟨"PROPONENT", "Pro opening."⟩,
       ⟨"OPPONENT", "Con opening."⟩], "Con opening."⟩ : LCRebCall).argPassed =
      mostRecentOpponentContent
        [⟨"MODERATOR", "Welcome."⟩, ⟨"PROPONENT", "Pro opening."⟩,
         ⟨"OPPONENT", "Con opening."⟩] "OPPONENT" :=
  ⟨c1_rebuttal_resolution_amended.1 ⟨1, false⟩ [],
   c1_rebuttal_resolution_amended.2 lcWitnessGens ⟨1, false⟩ "T" _ (by decide)⟩

end DebateSys
